import Mathlib

/-!
Shallow embedding of the djherbis/stream synchronization engine.

The Go sources embedded here are `sync.go` (the `broadcaster`),
`reader.go` (the `Reader` read-loop, `checkErr`, `Close`, `Seek`),
`readerset.go` (the live-reader set), and the `Stream` methods
(`ShutdownWithErr`, `Cancel`, `Close`) found alongside the benchmarks.

Conventions of the embedding:
* Go `error` values are `Option GoErr`, with `none` standing for `nil`.
* Readers are identified by a `Nat` id; the live-reader set (a Go map
  keyed by `*Reader`) becomes a `Finset Nat`, matching the
  no-duplicate-keys semantics of a Go map.
* `sync.WaitGroup` (`fileInUse`) becomes a `Nat` counter; `Done` is
  truncated subtraction (Go panics on a negative counter, which no
  claim exercises).
* Blocking calls are modelled by (a) a pure function giving the value
  returned once the call unblocks, evaluated on the broadcaster state
  at wake-up time, and (b) a decidable predicate giving the condition
  under which the call sleeps.
-/

namespace Stream

/-- The distinguishable error kinds that flow through the core
(`ErrCanceled`, `io.EOF`, `os.ErrClosed`, `ErrRemoving`, `errWhence`,
`errOffset`), plus `other n` for arbitrary file-I/O errors. -/
inductive GoErr : Type
  | canceled
  | eof
  | readerClosed
  | removing
  | whence
  | offset
  | other (n : Nat)
  deriving DecidableEq, Repr

/-- `streamState` from sync.go: `openState`, `closedState`, `canceledState`. -/
inductive streamState : Type
  | openState
  | closedState
  | canceledState
  deriving DecidableEq, Repr

/-- The `broadcaster` struct of sync.go: lifecycle state, authoritative
size, the new-handle-error latch, the live-reader set `rs`, and the
`fileInUse` wait-group counter. -/
structure broadcaster : Type where
  state : streamState
  size : Int
  newHandleErr : Option GoErr
  rs : Finset Nat
  fileInUse : Nat
  deriving DecidableEq

namespace broadcaster

/-- `readerSet.has` from readerset.go (map-key lookup). -/
def has (b : broadcaster) (r : Nat) : Prop := r ∈ b.rs

instance (b : broadcaster) (r : Nat) : Decidable (has b r) := by
  unfold has
  infer_instance

/-- `readerSet.add` from readerset.go: map insertion (idempotent on an
existing key). -/
def rsAdd (rs : Finset Nat) (r : Nat) : Finset Nat := insert r rs

/-- `readerSet.drop` from readerset.go: map deletion. -/
def rsDrop (rs : Finset Nat) (r : Nat) : Finset Nat := rs.erase r

/-- The loop guard of `broadcaster.Wait` in sync.go:
`b.state == openState && off >= b.size && b.rs.has(r)`.
`Wait` sleeps on the condition variable exactly while this holds. -/
def waitSleeps (b : broadcaster) (r : Nat) (off : Int) : Prop :=
  b.state = .openState ∧ off ≥ b.size ∧ b.has r

instance (b : broadcaster) (r : Nat) (off : Int) :
    Decidable (waitSleeps b r off) := by
  unfold waitSleeps
  infer_instance

/-- The value `broadcaster.Wait` returns, as a function of the
broadcaster state at wake-up time: the `switch b.state` classifying
Canceled, then Closed-with-`off >= size` as EOF, then the live-reader
check, then `nil`. -/
def Wait_result (b : broadcaster) (r : Nat) (off : Int) : Option GoErr :=
  match b.state with
  | .canceledState => some .canceled
  | .closedState =>
      if off ≥ b.size then some .eof
      else if b.has r then none else some .readerClosed
  | .openState =>
      if b.has r then none else some .readerClosed

/-- `broadcaster.Wrote` from sync.go: when `n > 0`, add `n` to `size`
under the exclusive lock; otherwise do nothing at all. -/
def Wrote (b : broadcaster) (n : Int) : broadcaster :=
  if n > 0 then { b with size := b.size + n } else b

/-- `broadcaster.setState` from sync.go: a no-op when already
`canceledState`, otherwise assign the new state (and broadcast). -/
def setState (b : broadcaster) (s : streamState) : broadcaster :=
  match b.state with
  | .canceledState => b
  | _ => { b with state := s }

/-- `broadcaster.preventNewHandles` from sync.go: store `e` only when
the latch is still `nil`. -/
def preventNewHandles (b : broadcaster) (e : Option GoErr) : broadcaster :=
  if b.newHandleErr = none then { b with newHandleErr := e } else b

/-- `broadcaster.dropHandle` from sync.go: `fileInUse.Done()`. -/
def dropHandle (b : broadcaster) : broadcaster :=
  { b with fileInUse := b.fileInUse - 1 }

/-- `broadcaster.Close` from sync.go: `setState(closedState)` then drop
the writer's handle. -/
def Close (b : broadcaster) : broadcaster :=
  (b.setState .closedState).dropHandle

/-- `broadcaster.Cancel` from sync.go: `setState(canceledState)`,
latch `ErrCanceled`, drain the live-reader set, and then (outside the
lock) `Close` each drained reader, whose `DropReader` call drops one
handle apiece (the `rs.drop` inside is a no-op, they are already
drained). -/
def Cancel (b : broadcaster) : broadcaster :=
  let b1 := (b.setState .canceledState).preventNewHandles (some .canceled)
  let drained := b1.rs
  { b1 with rs := ∅, fileInUse := b1.fileInUse - drained.card }

/-- `broadcaster.PreventNewHandles` from sync.go (the locked wrapper). -/
def PreventNewHandles (b : broadcaster) (e : Option GoErr) : broadcaster :=
  b.preventNewHandles e

/-- `broadcaster.WaitForZeroHandles` (`fileInUse.Wait()`) returns
exactly when the wait-group counter is zero. -/
def waitForZeroHandlesReturns (b : broadcaster) : Prop := b.fileInUse = 0

instance (b : broadcaster) : Decidable (waitForZeroHandlesReturns b) := by
  unfold waitForZeroHandlesReturns
  infer_instance

/-- `broadcaster.UseHandle` from sync.go: under the shared lock, a
canceled state short-circuits to `(0, ErrCanceled)`; otherwise the
user read `do` runs outside the lock and its result is returned. -/
def UseHandle (st : streamState) (res : Nat × Option GoErr) : Nat × Option GoErr :=
  match st with
  | .canceledState => (0, some .canceled)
  | _ => res

/-- `broadcaster.addHandle` from sync.go: fail with the latched error
when set, else `fileInUse.Add(1)`. Returns the updated state and the
error. -/
def addHandle (b : broadcaster) : broadcaster × Option GoErr :=
  match b.newHandleErr with
  | some e => (b, some e)
  | none => ({ b with fileInUse := b.fileInUse + 1 }, none)

/-- `broadcaster.NewReader` from sync.go. The factory outcome is
supplied as `Except GoErr Nat` (a fresh reader id, or the open error).
Returns the updated broadcaster, the call's result, and whether the
factory was invoked. -/
def NewReader (b : broadcaster) (factory : Except GoErr Nat) :
    broadcaster × Except GoErr Nat × Bool :=
  match b.addHandle with
  | (_, some e) => (b, .error e, false)
  | (b1, none) =>
      match factory with
      | .error e => (b1.dropHandle, .error e, true)
      | .ok r => ({ b1 with rs := rsAdd b1.rs r }, .ok r, true)

/-- `broadcaster.DropReader` from sync.go: remove `r` from the
live-reader set and drop its handle. -/
def DropReader (b : broadcaster) (r : Nat) : broadcaster :=
  { b with rs := rsDrop b.rs r, fileInUse := b.fileInUse - 1 }

/-- `broadcaster.Size` from sync.go: snapshot `(size, state == closedState)`. -/
def Size (b : broadcaster) : Int × Bool :=
  (b.size, decide (b.state = .closedState))

end broadcaster

/-- `Reader.checkErr` from reader.go: pass the error through, and flag
a self-`Close` exactly on `ErrCanceled`. The Bool records whether
`r.Close()` was invoked before the error was returned. -/
def checkErr (e : GoErr) : GoErr × Bool :=
  match e with
  | .canceled => (.canceled, true)
  | e => (e, false)

/-- The result of one `Reader.read` call: accumulated byte count, the
returned error (`none` for success), and whether the Reader closed
itself via `checkErr` before returning. -/
structure ReadRet : Type where
  n : Nat
  err : Option GoErr
  selfClosed : Bool
  deriving DecidableEq, Repr

/-- The `for` loop of `Reader.read` in reader.go, driven by two
oracles: `us` lists the successive outcomes `(m, err)` of
`b.UseHandle(file.ReadAt(p[n:], *off))`, and `ws` the successive
results of `b.Wait(r, *off)`. `n` is the accumulated count (0 at
entry). `none` means the oracle ran out before the call returned. -/
def readLoop : List (Nat × Option GoErr) → List (Option GoErr) → Nat → Option ReadRet
  | [], _, _ => none
  | (m, e) :: us, ws, n =>
      let n1 := n + m
      if n1 ≠ 0 ∧ (e = none ∨ e = some .eof) then
        some ⟨n1, none, false⟩
      else if e = some .eof then
        match ws with
        | [] => none
        | we :: ws1 =>
            match we with
            | some werr =>
                let c := checkErr werr
                some ⟨n1, some c.1, c.2⟩
            | none => readLoop us ws1 n1
      else
        match e with
        | some err =>
            let c := checkErr err
            some ⟨n1, some c.1, c.2⟩
        | none => readLoop us ws n1

/-- `Reader.Close` from reader.go (first call through the close-once
latch): close the file handle, then `DropReader` on the broadcaster. -/
def ReaderClose (b : broadcaster) (r : Nat) : broadcaster :=
  b.DropReader r

/-- `maxInt64` from reader.go. -/
def maxInt64 : Int := 2 ^ 63 - 1

/-- The common tail of `Reader.Seek`: reject a negative final offset,
otherwise store and return it. Result is the pair (saved read offset
after the call, outcome). -/
def seekTail (readOff off : Int) : Int × Except GoErr Int :=
  if off < 0 then (readOff, .error .offset) else (off, .ok off)

/-- `Reader.Seek` from reader.go, evaluated against the broadcaster
state `b` seen when the SeekEnd `Wait` wakes. Whence values follow Go:
0 = SeekStart, 1 = SeekCurrent, 2 = SeekEnd, anything else is invalid.
Result is the pair (saved read offset after the call, outcome). -/
def Seek (b : broadcaster) (r : Nat) (readOff offset : Int) (whence : Int) :
    Int × Except GoErr Int :=
  if whence = 0 then
    seekTail readOff offset
  else if whence = 1 then
    seekTail readOff (offset + readOff)
  else if whence = 2 then
    match b.Wait_result r maxInt64 with
    | some e =>
        if e = .eof then seekTail readOff (offset + (b.Size).1)
        else (readOff, .error e)
    | none => seekTail readOff (offset + (b.Size).1)
  else (readOff, .error .whence)

/-- `Reader.Seek` blocks (inside `Wait(r, maxInt64)`) exactly while the
broadcaster sleeps that wait. Only `whence = 2` (SeekEnd) waits. -/
def seekSleeps (b : broadcaster) (r : Nat) (whence : Int) : Prop :=
  whence = 2 ∧ b.waitSleeps r maxInt64

instance (b : broadcaster) (r : Nat) (whence : Int) :
    Decidable (seekSleeps b r whence) := by
  unfold seekSleeps
  infer_instance

/-- `Stream.ShutdownWithErr` from the Stream code: a `nil` error
returns at once with no effect; otherwise `PreventNewHandles(err)` and
then block in `WaitForZeroHandles`. This is the latch effect. -/
def ShutdownWithErr (b : broadcaster) (e : Option GoErr) : broadcaster :=
  if e = none then b else b.PreventNewHandles e

/-- `Stream.ShutdownWithErr` has not yet returned exactly while this
holds: a non-`nil` error was passed and `fileInUse` is still positive
(`WaitForZeroHandles` sleeps). `b` is the broadcaster state after the
latch was set. -/
def shutdownSleeps (b : broadcaster) (e : Option GoErr) : Prop :=
  e ≠ none ∧ ¬ b.waitForZeroHandlesReturns

instance (b : broadcaster) (e : Option GoErr) : Decidable (shutdownSleeps b e) := by
  unfold shutdownSleeps
  infer_instance

/-- Lock/condition-variable events emitted by a broadcaster method, in
program order: acquiring/releasing the exclusive write-lock, and
`cond.Broadcast()`. -/
inductive LockEv : Type
  | acquire
  | release
  | broadcast
  deriving DecidableEq, Repr

/-- Events of `broadcaster.setState` in sync.go: inside the canceled
branch nothing happens; otherwise the assignment is followed by
`b.cond.Broadcast()` — still inside whatever lock the caller holds. -/
def setStateEvents (cur : streamState) : List LockEv :=
  match cur with
  | .canceledState => []
  | _ => [.broadcast]

/-- Events of `broadcaster.Wrote` for `n > 0`: `Lock`, the size update,
`Unlock`, then `Broadcast`. For `n ≤ 0` nothing runs. -/
def wroteEvents (n : Int) : List LockEv :=
  if n > 0 then [.acquire, .release, .broadcast] else []

/-- Events of `broadcaster.Close`: `Lock`, `setState(closedState)`
(which broadcasts inside the lock), `Unlock`. -/
def closeEvents (cur : streamState) : List LockEv :=
  [.acquire] ++ setStateEvents cur ++ [.release]

/-- Events of `broadcaster.Cancel`: `Lock`, `setState(canceledState)`
(which broadcasts inside the lock), the latch and drain (no lock
events), `Unlock`; the subsequent reader closes emit no broadcast on
the canceled path. -/
def cancelEvents (cur : streamState) : List LockEv :=
  [.acquire] ++ setStateEvents cur ++ [.release]

/-- `true` iff every `broadcast` in the trace happens while the lock
depth is zero, i.e. strictly after the exclusive lock was released.
`d` is the current lock depth. -/
def broadcastsOutsideLock : List LockEv → Nat → Bool
  | [], _ => true
  | .acquire :: tr, d => broadcastsOutsideLock tr (d + 1)
  | .release :: tr, d => broadcastsOutsideLock tr (d - 1)
  | .broadcast :: tr, d => decide (d = 0) && broadcastsOutsideLock tr d

/-- The broadcaster-mutating operations a schedule may interleave. The
`newReader` constructor carries the factory's outcome. -/
inductive Op : Type
  | wrote (n : Int)
  | close
  | cancel
  | preventNewHandles (e : Option GoErr)
  | newReader (factory : Except GoErr Nat)
  | dropReader (r : Nat)
  deriving Repr

/-- One operation applied to a broadcaster state. -/
def stepOp (b : broadcaster) : Op → broadcaster
  | .wrote n => b.Wrote n
  | .close => b.Close
  | .cancel => b.Cancel
  | .preventNewHandles e => b.PreventNewHandles e
  | .newReader f => (b.NewReader f).1
  | .dropReader r => b.DropReader r

/-- A whole schedule of operations, applied left to right. -/
def runOps (b : broadcaster) (ops : List Op) : broadcaster :=
  ops.foldl stepOp b

/-- `Reader.Size` from reader.go: delegates to `broadcaster.Size`. -/
def ReaderSize (b : broadcaster) : Int × Bool := b.Size

/-- Written from the spec's words for claim C1: `wait` sleeps as long
as **all** of state == Open, `offset ≥ size`, reader still in the
live-reader set. To be compared with the loop guard from sync.go. -/
def waitSpecSleeps (b : broadcaster) (r : Nat) (off : Int) : Prop :=
  b.state = .openState ∧ off ≥ b.size ∧ r ∈ b.rs

instance (b : broadcaster) (r : Nat) (off : Int) :
    Decidable (waitSpecSleeps b r off) := by
  unfold waitSpecSleeps
  infer_instance

/-- Written from the spec's words for claim C1: on wake, classify with
priority Canceled, then Closed ∧ `offset ≥ size` → EndOfStream, then
reader gone → ReaderClosed, otherwise Ready (`none`). To be compared
with `broadcaster.Wait_result` from sync.go. -/
def waitSpecClassify (b : broadcaster) (r : Nat) (off : Int) : Option GoErr :=
  if b.state = .canceledState then some .canceled
  else if b.state = .closedState ∧ off ≥ b.size then some .eof
  else if ¬ b.has r then some .readerClosed
  else none

/-- The lifecycle edges the spec allows (claim C2): stay put, or move
along Open → Closed, Open → Canceled, Closed → Canceled. -/
def allowedTransition (s t : streamState) : Prop :=
  s = t ∨
    (s = .openState ∧ t = .closedState) ∨
    (s = .openState ∧ t = .canceledState) ∨
    (s = .closedState ∧ t = .canceledState)

instance (s t : streamState) : Decidable (allowedTransition s t) := by
  unfold allowedTransition
  infer_instance

/-! ## Helper lemmas shared by several claims -/

theorem stepOp_state_allowed (b : broadcaster) (op : Op) :
    allowedTransition b.state (stepOp b op).state := by
  cases op with
  | wrote n =>
      simp only [stepOp, broadcaster.Wrote]
      split <;> simp [allowedTransition]
  | close =>
      simp only [stepOp, broadcaster.Close, broadcaster.dropHandle, broadcaster.setState]
      cases h : b.state <;> simp [allowedTransition, h]
  | cancel =>
      simp only [stepOp, broadcaster.Cancel, broadcaster.preventNewHandles,
        broadcaster.setState]
      cases h : b.state <;> split_ifs <;> simp [allowedTransition, h]
  | preventNewHandles e =>
      simp only [stepOp, broadcaster.PreventNewHandles, broadcaster.preventNewHandles]
      split <;> simp [allowedTransition]
  | newReader f =>
      simp only [stepOp, broadcaster.NewReader, broadcaster.addHandle,
        broadcaster.dropHandle]
      cases h : b.newHandleErr <;> cases f <;> simp [allowedTransition]
  | dropReader r =>
      simp [stepOp, broadcaster.DropReader, allowedTransition]

theorem stepOp_canceled_absorbing (b : broadcaster) (op : Op)
    (h : b.state = .canceledState) : (stepOp b op).state = .canceledState := by
  have ha := stepOp_state_allowed b op
  rw [h] at ha
  rcases ha with ha | ⟨ha, _⟩ | ⟨ha, _⟩ | ⟨ha, _⟩
  · exact ha.symm
  all_goals exact absurd ha.symm (by simp)

theorem runOps_canceled_absorbing (b : broadcaster) (ops : List Op)
    (h : b.state = .canceledState) : (runOps b ops).state = .canceledState := by
  induction ops generalizing b with
  | nil => exact h
  | cons op ops ih =>
      simpa [runOps, List.foldl] using ih (stepOp b op) (stepOp_canceled_absorbing b op h)

theorem Wait_result_canceled (b : broadcaster) (r : Nat) (off : Int)
    (h : b.state = .canceledState) : b.Wait_result r off = some .canceled := by
  unfold broadcaster.Wait_result
  rw [h]

theorem Size_canceled (b : broadcaster) (h : b.state = .canceledState) :
    b.Size = (b.size, false) := by
  unfold broadcaster.Size
  rw [h]
  rfl

theorem stepOp_latch_stable (b : broadcaster) (op : Op) (e : GoErr)
    (h : b.newHandleErr = some e) : (stepOp b op).newHandleErr = some e := by
  cases op with
  | wrote n =>
      simp only [stepOp, broadcaster.Wrote]
      split <;> simp [h]
  | close =>
      simp only [stepOp, broadcaster.Close, broadcaster.dropHandle, broadcaster.setState]
      cases hb : b.state <;> simp [h]
  | cancel =>
      simp only [stepOp, broadcaster.Cancel, broadcaster.preventNewHandles,
        broadcaster.setState]
      cases hb : b.state <;> split_ifs <;> simp_all
  | preventNewHandles e2 =>
      simp only [stepOp, broadcaster.PreventNewHandles, broadcaster.preventNewHandles]
      split <;> simp_all
  | newReader f =>
      simp only [stepOp, broadcaster.NewReader, broadcaster.addHandle,
        broadcaster.dropHandle]
      rw [h]
      exact h
  | dropReader r =>
      simp [stepOp, broadcaster.DropReader, h]

theorem runOps_latch_stable (b : broadcaster) (ops : List Op) (e : GoErr)
    (h : b.newHandleErr = some e) : (runOps b ops).newHandleErr = some e := by
  induction ops generalizing b with
  | nil => exact h
  | cons op ops ih =>
      simpa [runOps, List.foldl] using ih (stepOp b op) (stepOp_latch_stable b op e h)

theorem stepOp_size_mono (b : broadcaster) (op : Op) : b.size ≤ (stepOp b op).size := by
  cases op with
  | wrote n =>
      simp only [stepOp, broadcaster.Wrote]
      split
      · simp only
        omega
      · exact le_refl _
  | close =>
      simp only [stepOp, broadcaster.Close, broadcaster.dropHandle, broadcaster.setState]
      cases hb : b.state <;> simp
  | cancel =>
      simp only [stepOp, broadcaster.Cancel, broadcaster.preventNewHandles,
        broadcaster.setState]
      cases hb : b.state <;> split_ifs <;> simp
  | preventNewHandles e2 =>
      simp only [stepOp, broadcaster.PreventNewHandles, broadcaster.preventNewHandles]
      split <;> simp
  | newReader f =>
      simp only [stepOp, broadcaster.NewReader, broadcaster.addHandle,
        broadcaster.dropHandle]
      cases hb : b.newHandleErr <;> cases f <;> simp
  | dropReader r =>
      simp [stepOp, broadcaster.DropReader]

theorem runOps_size_mono (b : broadcaster) (ops : List Op) :
    b.size ≤ (runOps b ops).size := by
  induction ops generalizing b with
  | nil => exact le_refl _
  | cons op ops ih =>
      calc b.size ≤ (stepOp b op).size := stepOp_size_mono b op
        _ ≤ (runOps (stepOp b op) ops).size := ih (stepOp b op)
        _ = (runOps b (op :: ops)).size := by simp [runOps, List.foldl]

theorem readLoop_canceled_flags_close (us : List (Nat × Option GoErr))
    (ws : List (Option GoErr)) (n0 n1 : Nat) (cl : Bool)
    (h : readLoop us ws n0 = some ⟨n1, some .canceled, cl⟩) : cl = true := by
  induction us generalizing ws n0 with
  | nil => simp [readLoop] at h
  | cons hd us ih =>
      obtain ⟨m, e⟩ := hd
      rw [readLoop.eq_def] at h
      simp only at h
      by_cases h1 : n0 + m ≠ 0 ∧ (e = none ∨ e = some .eof)
      · rw [if_pos h1] at h
        simp at h
      · rw [if_neg h1] at h
        by_cases h2 : e = some .eof
        · rw [if_pos h2] at h
          cases ws with
          | nil => simp at h
          | cons we ws1 =>
              cases we with
              | some werr =>
                  (cases werr <;> simp [checkErr] at h); simp_all
              | none => exact ih ws1 (n0 + m) h
        · rw [if_neg h2] at h
          cases e with
          | some err =>
              (cases err <;> simp [checkErr] at h); simp_all
          | none => exact ih ws (n0 + m) h

/-! ## Claims -/

/-- C1: `broadcaster.Wait(reader, offset)` sleeps exactly while
state == Open, `offset ≥ size`, and the reader is in the live-reader
set; on return it classifies with priority Canceled, then
Closed ∧ `offset ≥ size` → EndOfStream, then reader gone →
ReaderClosed, otherwise Ready (no error). The code's loop guard and
switch (`waitSleeps`, `Wait_result`) coincide with the spec's wording
(`waitSpecSleeps`, `waitSpecClassify`). -/
theorem wait_sleep_guard_and_classification :
    ∀ (b : broadcaster) (r : Nat) (off : Int),
      (b.waitSleeps r off ↔ waitSpecSleeps b r off) ∧
      b.Wait_result r off = waitSpecClassify b r off := by
  intro b r off
  constructor
  · exact Iff.rfl
  · unfold broadcaster.Wait_result waitSpecClassify
    cases h : b.state <;> simp only [h] <;> split_ifs <;> simp_all

/-- C2: lifecycle moves only along Open → Closed, Open → Canceled,
Closed → Canceled; once Canceled, every later operation leaves the
state Canceled, `Wait` reports Canceled, `Size` reports not-closed,
and `Close` in the Canceled state leaves the state Canceled. -/
theorem lifecycle_one_way_and_canceled_absorbing (b : broadcaster)
    (ops : List Op) (r : Nat) (off : Int) (h : b.state = .canceledState) :
    (runOps b ops).state = .canceledState ∧
    (runOps b ops).Wait_result r off = some .canceled ∧
    ((runOps b ops).Size).2 = false ∧
    (b.Close).state = .canceledState ∧
    ∀ (b2 : broadcaster) (op : Op), allowedTransition b2.state (stepOp b2 op).state := by
  have hrun := runOps_canceled_absorbing b ops h
  refine ⟨hrun, Wait_result_canceled _ r off hrun, ?_, ?_, fun b2 op => stepOp_state_allowed b2 op⟩
  · rw [Size_canceled _ hrun]
  · have := stepOp_canceled_absorbing b .close h
    simpa [stepOp] using this

/-- C3: once the new-handle-error latch holds an error, no sequence of
operations replaces or clears it, and `NewReader` while the latch is
set returns exactly the latched error with the broadcaster (hence the
handle counter) unchanged and the factory not invoked. -/
theorem new_handle_latch_write_once (b : broadcaster) (ops : List Op) (e : GoErr)
    (f : Except GoErr Nat) (h : b.newHandleErr = some e) :
    (runOps b ops).newHandleErr = some e ∧
    b.NewReader f = (b, .error e, false) := by
  refine ⟨runOps_latch_stable b ops e h, ?_⟩
  simp only [broadcaster.NewReader, broadcaster.addHandle]
  rw [h]

/-- Witness for C3 at a concrete latched broadcaster and schedule. -/
theorem new_handle_latch_write_once_witness :
    (broadcaster.mk .openState 0 (some .removing) ∅ 2).newHandleErr = some .removing ∧
    ((runOps (broadcaster.mk .openState 0 (some .removing) ∅ 2)
        [.preventNewHandles (some .canceled), .cancel]).newHandleErr = some .removing ∧
      (broadcaster.mk .openState 0 (some .removing) ∅ 2).NewReader (.ok 7) =
        (broadcaster.mk .openState 0 (some .removing) ∅ 2, .error .removing, false)) :=
  ⟨rfl, new_handle_latch_write_once _ [.preventNewHandles (some .canceled), .cancel]
    .removing (.ok 7) rfl⟩

/-- C4: `Wrote n` adds `n` to `size` exactly when `n > 0` and leaves it
unchanged otherwise, no operation other than `Wrote` changes `size`,
and `size` is non-decreasing across every operation schedule. -/
theorem size_monotone_nondecreasing (b : broadcaster) (ops : List Op) (n : Int)
    (op : Op) (hop : ∀ m, op ≠ Op.wrote m) :
    (b.Wrote n).size = (if n > 0 then b.size + n else b.size) ∧
    (stepOp b op).size = b.size ∧
    b.size ≤ (runOps b ops).size := by
  refine ⟨?_, ?_, runOps_size_mono b ops⟩
  · unfold broadcaster.Wrote
    split <;> simp_all
  · cases op with
    | wrote m => exact absurd rfl (hop m)
    | close =>
        simp only [stepOp, broadcaster.Close, broadcaster.dropHandle,
          broadcaster.setState]
        cases hb : b.state <;> simp
    | cancel =>
        simp only [stepOp, broadcaster.Cancel, broadcaster.preventNewHandles,
          broadcaster.setState]
        cases hb : b.state <;> split_ifs <;> simp
    | preventNewHandles e2 =>
        simp only [stepOp, broadcaster.PreventNewHandles,
          broadcaster.preventNewHandles]
        split <;> simp
    | newReader f =>
        simp only [stepOp, broadcaster.NewReader, broadcaster.addHandle,
          broadcaster.dropHandle]
        cases hb : b.newHandleErr <;> cases f <;> simp
    | dropReader r =>
        simp [stepOp, broadcaster.DropReader]

/-- Witness for C4 at a concrete broadcaster, schedule and non-`Wrote`
operation. -/
theorem size_monotone_nondecreasing_witness :
    (∀ m, Op.close ≠ Op.wrote m) ∧
    (((broadcaster.mk .openState 5 none ∅ 1).Wrote (-2)).size =
        (if (-2 : Int) > 0 then (5 : Int) + (-2) else 5) ∧
      (stepOp (broadcaster.mk .openState 5 none ∅ 1) .close).size = 5 ∧
      (5 : Int) ≤ (runOps (broadcaster.mk .openState 5 none ∅ 1) [.wrote 3, .close]).size) :=
  ⟨fun _ h => Op.noConfusion h,
    size_monotone_nondecreasing _ [.wrote 3, .close] (-2) .close
      (fun _ h => Op.noConfusion h)⟩

/-- Witness for C2 at a concrete canceled broadcaster and schedule. -/
theorem lifecycle_one_way_and_canceled_absorbing_witness :
    (broadcaster.mk .canceledState 3 (some .canceled) ∅ 1).state = .canceledState ∧
    ((runOps (broadcaster.mk .canceledState 3 (some .canceled) ∅ 1) [.close, .wrote 2]).state = .canceledState ∧
      (runOps (broadcaster.mk .canceledState 3 (some .canceled) ∅ 1) [.close, .wrote 2]).Wait_result 0 0 = some .canceled ∧
      ((runOps (broadcaster.mk .canceledState 3 (some .canceled) ∅ 1) [.close, .wrote 2]).Size).2 = false ∧
      ((broadcaster.mk .canceledState 3 (some .canceled) ∅ 1).Close).state = .canceledState ∧
      ∀ (b2 : broadcaster) (op : Op), allowedTransition b2.state (stepOp b2 op).state) :=
  ⟨rfl, lifecycle_one_way_and_canceled_absorbing _ [.close, .wrote 2] 0 0 rfl⟩

/-- C5: when the underlying positional read returns `m > 0` bytes with
either no error or EOF, `Reader.read` (hence `Read` and `ReadAt`,
which both enter the loop with an accumulated count of 0) returns
`(m, nil)` at once: the EOF is swallowed and no self-close happens. -/
theorem partial_read_with_eof_is_success (m : Nat) (e : Option GoErr)
    (us : List (Nat × Option GoErr)) (ws : List (Option GoErr))
    (hm : 0 < m) (he : e = none ∨ e = some .eof) :
    readLoop ((m, e) :: us) ws 0 = some ⟨m, none, false⟩ := by
  rw [readLoop.eq_def]
  simp only
  rw [if_pos ⟨by omega, he⟩]
  simp

/-- Witness for C5 at a concrete read outcome. -/
theorem partial_read_with_eof_is_success_witness :
    0 < 3 ∧ (some GoErr.eof = none ∨ some GoErr.eof = some .eof) ∧
    readLoop [(3, some .eof)] [] 0 = some ⟨3, none, false⟩ :=
  ⟨by decide, Or.inr rfl,
    partial_read_with_eof_is_success 3 (some .eof) [] [] (by decide) (Or.inr rfl)⟩

/-- C6: whenever a `Reader.read` call returns the Canceled error —
whether it came from `Wait` or from `UseHandle`'s canceled
short-circuit — the reader has closed itself first (`checkErr` calls
`Close`), and that `Close` drops the reader from the broadcaster's
live set and releases its handle. -/
theorem canceled_read_self_closes (us : List (Nat × Option GoErr))
    (ws : List (Option GoErr)) (n0 n1 : Nat) (cl : Bool) (b : broadcaster)
    (r : Nat) (res : Nat × Option GoErr)
    (h : readLoop us ws n0 = some ⟨n1, some .canceled, cl⟩) :
    cl = true ∧
    broadcaster.UseHandle .canceledState res = (0, some .canceled) ∧
    checkErr .canceled = (.canceled, true) ∧
    ¬ (ReaderClose b r).has r ∧
    (ReaderClose b r).fileInUse = b.fileInUse - 1 := by
  refine ⟨readLoop_canceled_flags_close us ws n0 n1 cl h, rfl, rfl, ?_, rfl⟩
  simp [ReaderClose, broadcaster.DropReader, broadcaster.rsDrop, broadcaster.has]

/-- Witness for C6 at a concrete trace in which `Wait` reports
Canceled. -/
theorem canceled_read_self_closes_witness :
    readLoop [(0, some .eof)] [some .canceled] 0 = some ⟨0, some .canceled, true⟩ ∧
    (true = true ∧
      broadcaster.UseHandle .canceledState (2, none) = (0, some .canceled) ∧
      checkErr .canceled = (.canceled, true) ∧
      ¬ (ReaderClose (broadcaster.mk .openState 4 none {1} 2) 1).has 1 ∧
      (ReaderClose (broadcaster.mk .openState 4 none {1} 2) 1).fileInUse = 2 - 1) :=
  ⟨by decide,
    canceled_read_self_closes [(0, some .eof)] [some .canceled] 0 0 true
      (broadcaster.mk .openState 4 none {1} 2) 1 (2, none) (by decide)⟩

/-- C7 counterexample: for the error value `nil` the claim fails. With
one handle still open, `ShutdownWithErr(nil)` does not sleep in
`WaitForZeroHandles` (it returns at once), it latches nothing, and a
subsequent `NewReader` succeeds (invoking the factory) instead of
failing with the passed error. -/
theorem shutdown_with_nil_counterexample :
    (broadcaster.mk .openState 0 none ∅ 1).fileInUse = 1 ∧
    ¬ shutdownSleeps (ShutdownWithErr (broadcaster.mk .openState 0 none ∅ 1) none) none ∧
    (ShutdownWithErr (broadcaster.mk .openState 0 none ∅ 1) none).newHandleErr = none ∧
    ((ShutdownWithErr (broadcaster.mk .openState 0 none ∅ 1) none).NewReader (.ok 5)).2 =
      (.ok 5, true) := by
  refine ⟨rfl, ?_, rfl, rfl⟩
  intro hs
  exact hs.1 rfl

/-- C7 amended: for every non-`nil` error `err`,
`ShutdownWithErr(err)` calls `PreventNewHandles(err)` (latching `err`
when no error was latched before) and then blocks in
`WaitForZeroHandles`, sleeping exactly while the handle counter is
non-zero; when no error was latched before the call, `NewReader`
after it begins fails with exactly `err`, the factory not invoked and
the broadcaster unchanged. `ShutdownWithErr(nil)` returns immediately
with no effect. -/
theorem shutdown_with_err_latches_and_blocks (b : broadcaster) (e : GoErr)
    (f : Except GoErr Nat) (h : b.newHandleErr = none) :
    ShutdownWithErr b (some e) = b.PreventNewHandles (some e) ∧
    (ShutdownWithErr b (some e)).newHandleErr = some e ∧
    (∀ b2 : broadcaster, shutdownSleeps b2 (some e) ↔ b2.fileInUse ≠ 0) ∧
    (ShutdownWithErr b (some e)).NewReader f =
      (ShutdownWithErr b (some e), .error e, false) ∧
    ShutdownWithErr b none = b := by
  have hlatch : (ShutdownWithErr b (some e)).newHandleErr = some e := by
    simp [ShutdownWithErr, broadcaster.PreventNewHandles,
      broadcaster.preventNewHandles, h]
  refine ⟨by simp [ShutdownWithErr], hlatch, ?_, ?_, by simp [ShutdownWithErr]⟩
  · intro b2
    unfold shutdownSleeps broadcaster.waitForZeroHandlesReturns
    simp
  · simp only [broadcaster.NewReader, broadcaster.addHandle]
    rw [hlatch]

/-- Witness for the amended C7 at a concrete unlatched broadcaster. -/
theorem shutdown_with_err_latches_and_blocks_witness :
    (broadcaster.mk .openState 0 none ∅ 1).newHandleErr = none ∧
    (ShutdownWithErr (broadcaster.mk .openState 0 none ∅ 1) (some .removing) =
        (broadcaster.mk .openState 0 none ∅ 1).PreventNewHandles (some .removing) ∧
      (ShutdownWithErr (broadcaster.mk .openState 0 none ∅ 1) (some .removing)).newHandleErr =
        some .removing ∧
      (∀ b2 : broadcaster, shutdownSleeps b2 (some .removing) ↔ b2.fileInUse ≠ 0) ∧
      (ShutdownWithErr (broadcaster.mk .openState 0 none ∅ 1) (some .removing)).NewReader (.ok 9) =
        (ShutdownWithErr (broadcaster.mk .openState 0 none ∅ 1) (some .removing), .error .removing, false) ∧
      ShutdownWithErr (broadcaster.mk .openState 0 none ∅ 1) none =
        broadcaster.mk .openState 0 none ∅ 1) :=
  ⟨rfl, shutdown_with_err_latches_and_blocks _ .removing (.ok 9) rfl⟩

/-- C8 counterexample: with the stream Canceled, `Seek(0, SeekEnd)`
returns the Canceled error rather than size plus the relative offset
(here size 5, relative offset 0, so the claim predicts result 5). -/
theorem seek_end_canceled_counterexample :
    Seek (broadcaster.mk .canceledState 5 (some .canceled) {1} 1) 1 0 0 2 =
      (0, .error .canceled) ∧
    (Seek (broadcaster.mk .canceledState 5 (some .canceled) {1} 1) 1 0 0 2).2 ≠
      .ok ((broadcaster.mk .canceledState 5 (some .canceled) {1} 1).size + 0) := by
  refine ⟨rfl, ?_⟩
  intro hcontra
  exact Except.noConfusion hcontra

/-- C8 amended: SeekEnd consults `Wait(self, MAX_INT64)` and sleeps
exactly while the state is Open and the reader is live; when the state
is Closed it returns size plus the relative offset (the negative-final
check still applying), while Canceled yields the Canceled error; every
whence outside {SeekStart, SeekCurrent, SeekEnd} fails with the
invalid-whence error and every negative computed final offset fails
with the invalid-offset error, the saved read offset unchanged in all
failure cases. -/
theorem seek_whence_offset_and_seek_end (b : broadcaster) (r : Nat)
    (ro off w : Int) (hw : w ≠ 0 ∧ w ≠ 1 ∧ w ≠ 2) (hsz : b.size ≤ maxInt64) :
    Seek b r ro off w = (ro, .error .whence) ∧
    (seekSleeps b r 2 ↔ b.state = .openState ∧ b.has r) ∧
    (b.state = .closedState → Seek b r ro off 2 = seekTail ro (off + b.size)) ∧
    (b.state = .canceledState → Seek b r ro off 2 = (ro, .error .canceled)) ∧
    (∀ o : Int, o < 0 → seekTail ro o = (ro, .error .offset)) ∧
    (∀ o : Int, 0 ≤ o → seekTail ro o = (o, .ok o)) ∧
    (off < 0 → Seek b r ro off 0 = (ro, .error .offset)) ∧
    (off + ro < 0 → Seek b r ro off 1 = (ro, .error .offset)) := by
  obtain ⟨hw0, hw1, hw2⟩ := hw
  refine ⟨by simp [Seek, hw0, hw1, hw2], ?_, ?_, ?_, ?_, ?_, ?_, ?_⟩
  · unfold seekSleeps broadcaster.waitSleeps
    constructor
    · rintro ⟨-, h1, -, h3⟩
      exact ⟨h1, h3⟩
    · rintro ⟨h1, h3⟩
      exact ⟨rfl, h1, hsz, h3⟩
  · intro hc
    simp [Seek, broadcaster.Wait_result, hc, broadcaster.Size, hsz]
  · intro hc
    simp [Seek, broadcaster.Wait_result, hc]
  · intro o ho
    simp [seekTail, ho]
  · intro o ho
    simp [seekTail, not_lt.mpr ho]
  · intro ho
    simp [Seek, seekTail, ho]
  · intro ho
    simp [Seek, seekTail, ho]

/-- Witness for the amended C8 at a concrete closed broadcaster and an
invalid whence. -/
theorem seek_whence_offset_and_seek_end_witness :
    ((5 : Int) ≠ 0 ∧ (5 : Int) ≠ 1 ∧ (5 : Int) ≠ 2) ∧
    (broadcaster.mk .closedState 3 none {1} 1).size ≤ maxInt64 ∧
    (Seek (broadcaster.mk .closedState 3 none {1} 1) 1 7 2 5 = (7, .error .whence) ∧
      (seekSleeps (broadcaster.mk .closedState 3 none {1} 1) 1 2 ↔
        (broadcaster.mk .closedState 3 none {1} 1).state = .openState ∧
          (broadcaster.mk .closedState 3 none {1} 1).has 1) ∧
      ((broadcaster.mk .closedState 3 none {1} 1).state = .closedState →
        Seek (broadcaster.mk .closedState 3 none {1} 1) 1 7 2 2 = seekTail 7 (2 + 3)) ∧
      ((broadcaster.mk .closedState 3 none {1} 1).state = .canceledState →
        Seek (broadcaster.mk .closedState 3 none {1} 1) 1 7 2 2 = (7, .error .canceled)) ∧
      (∀ o : Int, o < 0 → seekTail 7 o = (7, .error .offset)) ∧
      (∀ o : Int, 0 ≤ o → seekTail 7 o = (o, .ok o)) ∧
      ((2 : Int) < 0 → Seek (broadcaster.mk .closedState 3 none {1} 1) 1 7 2 0 = (7, .error .offset)) ∧
      ((2 : Int) + 7 < 0 → Seek (broadcaster.mk .closedState 3 none {1} 1) 1 7 2 1 = (7, .error .offset))) :=
  ⟨by norm_num, by decide,
    seek_whence_offset_and_seek_end _ 1 7 2 5 (by norm_num) (by decide)⟩

/-- C9 counterexample: `broadcaster.Close` on an Open stream emits
acquire, broadcast, release in that order — the broadcast inside
`setState` happens while the exclusive lock is still held, not after
its release. -/
theorem broadcast_under_lock_counterexample :
    closeEvents .openState = [.acquire, .broadcast, .release] ∧
    broadcastsOutsideLock (closeEvents .openState) 0 = false := by
  decide

/-- C9 amended: `Wrote`'s broadcast happens only after the exclusive
lock is released, but `Close` and `Cancel` broadcast via `setState`
while the exclusive lock is still held (and emit no broadcast at all
when the state is already Canceled). -/
theorem broadcast_order_per_method :
    (∀ n : Int, broadcastsOutsideLock (wroteEvents n) 0 = true) ∧
    closeEvents .closedState = [.acquire, .broadcast, .release] ∧
    cancelEvents .openState = [.acquire, .broadcast, .release] ∧
    cancelEvents .closedState = [.acquire, .broadcast, .release] ∧
    closeEvents .canceledState = [.acquire, .release] ∧
    cancelEvents .canceledState = [.acquire, .release] ∧
    broadcastsOutsideLock [LockEv.acquire, .broadcast, .release] 0 = false := by
  refine ⟨?_, by decide, by decide, by decide, by decide, by decide, by decide⟩
  intro n
  unfold wroteEvents
  split <;> decide

/-- C10: `broadcaster.Size` (and `Reader.Size`, which delegates to it)
reports final (`true`) iff the state is exactly Closed, so in the
Canceled state it returns `(size, false)` even though the stream is
terminal. -/
theorem size_final_flag_iff_closed (b : broadcaster)
    (h : b.state = .canceledState) :
    (∀ b2 : broadcaster,
      (((b2.Size).2 = true) ↔ b2.state = .closedState) ∧ ReaderSize b2 = b2.Size) ∧
    b.Size = (b.size, false) := by
  refine ⟨fun b2 => ⟨?_, rfl⟩, Size_canceled b h⟩
  simp [broadcaster.Size]

/-- Witness for C10 at a concrete canceled broadcaster. -/
theorem size_final_flag_iff_closed_witness :
    (broadcaster.mk .canceledState 9 (some .canceled) ∅ 0).state = .canceledState ∧
    ((∀ b2 : broadcaster,
        (((b2.Size).2 = true) ↔ b2.state = .closedState) ∧ ReaderSize b2 = b2.Size) ∧
      (broadcaster.mk .canceledState 9 (some .canceled) ∅ 0).Size = (9, false)) :=
  ⟨rfl, size_final_flag_iff_closed _ rfl⟩

end Stream
